import Mathlib

/-!
Verification of the FreeBili multi-source search core (`src/main.py`)
against its natural-language specification.

Python strings are modelled as `List Char` (`PyStr`); `pySplit` embeds
Python's `str.split(sep)` for a non-empty separator.  Fallible network
responses are modelled by an explicit outcome type, so the Fetcher is a
total function returning `Option` (Python `None` = `Option.none`).
-/

/-- Python strings are modelled as lists of characters. -/
abbrev PyStr := List Char

/-- Coerce a Lean string literal into the model. -/
def pstr (s : String) : PyStr := s.data

/-- Embedding of Python `s.split(sep)` for a single-character separator:
scan left to right, cut at every occurrence.  `"".split(sep) == [""]` and a
trailing separator yields a trailing empty piece, exactly as in Python. -/
def splitChar (sep : Char) : PyStr → List PyStr
  | [] => [[]]
  | c :: rest =>
    if c = sep then [] :: splitChar sep rest
    else
      match splitChar sep rest with
      | [] => [[c]]
      | h :: t => (c :: h) :: t

/-- Embedding of Python `s.split(sep*3)` for a separator made of the same
character three times (the source splits on `"$$$"`): cut at each leftmost
occurrence, scanning greedily from the left as Python does. -/
def splitTriple (sep : Char) : PyStr → List PyStr
  | a :: b :: c :: rest =>
    if a = sep ∧ b = sep ∧ c = sep then
      [] :: splitTriple sep rest
    else
      match splitTriple sep (b :: c :: rest) with
      | [] => [[a]]
      | h :: t => (a :: h) :: t
  | s => [s]

/-- `episode.split('$')` from `parse_cms_data`. -/
def splitDollar (s : PyStr) : List PyStr := splitChar '$' s

/-- `play_urls_str.split('#')` from `parse_cms_data`. -/
def splitHash (s : PyStr) : List PyStr := splitChar '#' s

/-- `item.get("vod_play_url", "").split("$$$")` from `parse_cms_data`. -/
def splitTripleDollar (s : PyStr) : List PyStr := splitTriple '$' s

/-- A normalized episode `{"name": ..., "video_url": ...}`. -/
structure Episode where
  name : PyStr
  video_url : PyStr
deriving DecidableEq

/-- One raw item of a provider's `"list"` field.  Each field is optional:
`item.get(k, default)` in the source supplies a default when absent. -/
structure RawItem where
  vod_name : Option PyStr
  vod_pic : Option PyStr
  vod_play_url : Option PyStr
  vod_id : Option PyStr
  vod_douban_id : Option PyStr
deriving DecidableEq

/-- A normalized media entry as appended to `results` in `parse_cms_data`. -/
structure MediaEntry where
  name : PyStr
  vod_pic : PyStr
  videos : List Episode
  vod_id : PyStr
  vod_douban_id : PyStr
deriving DecidableEq

/-- The dictionary returned by `parse_cms_data`:
`{"name": source_name, "result": results}`. -/
structure SourceResult where
  name : PyStr
  result : List MediaEntry
deriving DecidableEq

/-- The body of the inner `for episode in episodes:` loop of
`parse_cms_data`: `parts = episode.split('$')`; the episode is kept iff
`len(parts) == 2`, in which case `video_name, video_url = parts`. -/
def parseEpisode (episode : PyStr) : Option Episode :=
  match splitDollar episode with
  | [video_name, video_url] => some { name := video_name, video_url := video_url }
  | _ => none

/-- The `videos` list built for one item by `parse_cms_data`:
`play_urls_str.split('#')`, keeping each token that splits by `'$'` into
exactly two parts, in order. -/
def parsedVideos (play_urls_str : PyStr) : List Episode :=
  (splitHash play_urls_str).filterMap parseEpisode

/-- `item.get("vod_play_url", "").split("$$$")[0]` from `parse_cms_data`:
the first segment of the compound play-source string.  Python's split
never returns an empty list, so index `0` always exists; `headD` with an
arbitrary default is exact because `splitTriple` is never `[]`. -/
def firstPlaySegment (item : RawItem) : PyStr :=
  (splitTripleDollar (item.vod_play_url.getD [])).headD []

/-- Embedding of `parse_cms_data(source_name, cms_list)` from
`src/main.py`: for each item take the first `"$$$"`-segment of
`vod_play_url`, split it by `'#'`, split each episode token by `'$'`,
keep tokens with exactly two parts, and append a media entry only when at
least one episode was parsed (`if videos:`). -/
def parse_cms_data (source_name : PyStr) (cms_list : List RawItem) : SourceResult :=
  { name := source_name
    result := cms_list.filterMap fun item =>
      let videos := parsedVideos (firstPlaySegment item)
      if videos.isEmpty then none
      else some
        { name := item.vod_name.getD (pstr "未知名称")
          vod_pic := item.vod_pic.getD []
          videos := videos
          vod_id := item.vod_id.getD []
          vod_douban_id := item.vod_douban_id.getD [] } }

/-- A provider endpoint, one element of `site_config["base_urls"]`:
`{"name": ..., "base_url": ...}`. -/
structure Source where
  name : PyStr
  base_url : PyStr
deriving DecidableEq

/-- `url = f"{source['base_url']}?ac=detail&wd={keyword}"` from
`fetch_and_process` (src/main.py line 156): plain f-string interpolation,
the keyword is inserted verbatim. -/
def build_url (base_url keyword : PyStr) : PyStr :=
  base_url ++ pstr "?ac=detail&wd=" ++ keyword

/-- Uppercase hexadecimal digit for `n < 16`. -/
def hexDigit (n : Nat) : Char :=
  if n < 10 then Char.ofNat ('0'.toNat + n) else Char.ofNat ('A'.toNat + (n - 10))

/-- Characters that URL-encoding leaves unchanged (alphanumerics,
`-`, `_`, `.`, `~`, and `/`, as `urllib.parse.quote` does by default). -/
def isUrlSafe (c : Char) : Bool :=
  c.isAlphanum || c = '-' || c = '_' || c = '.' || c = '~' || c = '/'

/-- Modelled from the spec: "the urlencoded keyword".  The repository's
`fetch_and_process` performs no encoding; this definition follows the
spec's words — standard percent-encoding of an ASCII keyword, safe
characters pass through, every other character becomes `%XX` with `XX`
the uppercase hexadecimal of its code point. -/
def urlencode (s : PyStr) : PyStr :=
  (s.map fun c =>
    if isUrlSafe c then [c]
    else ['%', hexDigit (c.toNat / 16), hexDigit (c.toNat % 16)]).flatten

/-- The decoded JSON body of a provider response as consumed by
`fetch_and_process`: a `"code"` field, an optional `"msg"`, and the
`"list"` field of raw items.  A field absent from the JSON object is
`none` (`dict.get` then yields Python `None`, which is falsy). -/
structure ProviderPayload where
  code : Option Int
  msg : Option PyStr
  list : Option (List RawItem)
deriving DecidableEq

/-- What the single `client.get` call of `fetch_and_process` can come
back with, as observed by its `try` block: a timeout
(`httpx.TimeoutException`), any other transport fault (DNS failure,
connection refused, ... — caught by the blanket `except Exception`), or
an HTTP response carrying a status code and a body that either decodes
as JSON (`some payload`) or does not (`response.json()` raises, which
the blanket handler also absorbs). -/
inductive FetchResponse
  | timeout
  | transportFault
  | response (status : Nat) (body : Option ProviderPayload)
deriving DecidableEq

/-- `response.raise_for_status()` (httpx) raises unless the final status
code is in the 2xx success range. -/
def is2xx (status : Nat) : Bool := 200 ≤ status && status ≤ 299

/-- Embedding of `fetch_and_process(client, source, keyword)` from
`src/main.py`, parameterized by the outcome of its HTTP GET.  Every
exception raised inside the `try` block — timeout, transport fault, the
`raise_for_status()` error on a non-2xx status, the JSON decode error —
is caught and turned into `None`; with a decoded body, the success test
is `data.get("code") == 1 and data.get("list")` (the `"list"` field
present and non-empty), in which case `parse_cms_data` runs on it,
otherwise `None`.  The function is total: no exception reaches the
caller. -/
def fetch_and_process (source : Source) (keyword : PyStr)
    (resp : FetchResponse) : Option SourceResult :=
  match resp with
  | .timeout => none
  | .transportFault => none
  | .response status body =>
    if is2xx status then
      match body with
      | none => none
      | some data =>
        if data.code = some 1 ∧ data.list.getD [] ≠ [] then
          some (parse_cms_data source.name (data.list.getD []))
        else none
    else none

/-- Embedding of the `async for`-style loop of `search_event_generator`
(src/main.py lines 206-211), applied to the task results in the order
`asyncio.as_completed` hands them back: a completed task's result is
yielded iff it is not `None` and its `"result"` list is truthy
(non-empty); everything else is skipped, and the generator closes when
the list of completions is exhausted. -/
def search_event_generator (completed : List (Option SourceResult)) :
    List SourceResult :=
  match completed with
  | [] => []
  | none :: rest => search_event_generator rest
  | some r :: rest =>
    if r.result.isEmpty then search_event_generator rest
    else r :: search_event_generator rest

/-- The configuration snapshot `site_config`: the fields the search core
reads (`"timeout"` and `"base_urls"`). -/
structure SiteConfig where
  timeout : Nat
  base_urls : List Source
deriving DecidableEq

/-- The value the `/search` route handler returns: the validation error
dictionary `{"error": "keyword is required"}`, or a `StreamingResponse`
wrapping `search_event_generator(keyword, site_config["base_urls"])`. -/
inductive SearchResponse
  | validationError (msg : PyStr)
  | streamingResponse (keyword : PyStr) (sources : List Source)
deriving DecidableEq

/-- Embedding of the `/search` handler (src/main.py lines 214-225):
`if not keyword:` — the empty string is the only falsy `str` — return
the error dictionary; otherwise build the streaming response over the
endpoint list read from the global config at this moment. -/
def search (keyword : PyStr) (site_config : SiteConfig) : SearchResponse :=
  if keyword = [] then .validationError (pstr "keyword is required")
  else .streamingResponse keyword site_config.base_urls

/-- How many fetcher tasks (outbound network calls) a `/search` response
leads to: `search_event_generator` creates one task per source; a
validation error creates none. -/
def tasksLaunched : SearchResponse → Nat
  | .validationError _ => 0
  | .streamingResponse _ sources => sources.length

/-- One scheduler step interleaved with a running search, for the
configuration-snapshot analysis: either the `/config` POST handler
rebinds the global `site_config` to a freshly built dictionary
(`update_config`, src/main.py line 251 — a rebinding, not an in-place
mutation), or the fetcher for endpoint `i` of the search reaches its
`client.get` call, which reads `site_config["timeout"]` from the global
at that moment (`fetch_and_process`, src/main.py line 166). -/
inductive ConfigEvent
  | update (newConfig : SiteConfig)
  | fetchGet (i : Nat)
deriving DecidableEq

/-- A record of one fetcher's `client.get` call: which endpoint it hit
and which timeout value it passed. -/
structure FetchCall where
  source : Source
  timeout : Nat
deriving DecidableEq

/-- Interpreter for the events interleaved with one search:
`snapshot` is the endpoint list captured when the search started,
the `SiteConfig` argument is the current global `site_config`. -/
def runSearchGo (snapshot : List Source) :
    SiteConfig → List ConfigEvent → List FetchCall
  | _, [] => []
  | _, .update c :: rest => runSearchGo snapshot c rest
  | g, .fetchGet i :: rest =>
    match snapshot[i]? with
    | none => runSearchGo snapshot g rest
    | some s => { source := s, timeout := g.timeout } :: runSearchGo snapshot g rest

/-- The `client.get` calls made by a search that started while the
global config was `g₀`, run through a sequence of interleaved events.
The `/search` handler evaluates `site_config["base_urls"]` once, when
the route runs, so the endpoint list is the one from `g₀`; each fetcher
reads `site_config["timeout"]` only when its own `client.get` executes,
i.e. from the global as rebound by any earlier `update`. -/
def runSearchTrace (g₀ : SiteConfig) (events : List ConfigEvent) : List FetchCall :=
  runSearchGo g₀.base_urls g₀ events

/-- `true` iff no `/config` update is interleaved with the search. -/
def noConfigUpdate (events : List ConfigEvent) : Bool :=
  events.all fun e =>
    match e with
    | .update _ => false
    | .fetchGet _ => true

/-- One fetcher task in the completion-order model of the coordinator:
the index of its endpoint in the configured order, the instant its
future completes, and the value `fetch_and_process` returned. -/
structure TaskRun where
  index : Nat
  finish : Nat
  result : Option SourceResult

/-- "completes no later than": the order in which `asyncio.as_completed`
hands futures back to the loop of `search_event_generator`. -/
def completesBefore (a b : TaskRun) : Prop := a.finish ≤ b.finish

instance : DecidableRel completesBefore := fun a b => Nat.decLe a.finish b.finish

instance : IsTotal TaskRun completesBefore := ⟨fun a b => Nat.le_total a.finish b.finish⟩

instance : IsTrans TaskRun completesBefore := ⟨fun _ _ _ => Nat.le_trans⟩

/-- Model of `asyncio.as_completed(tasks)` (src/main.py line 206): the
launched tasks, rearranged into the order their futures complete. -/
def as_completed (tasks : List TaskRun) : List TaskRun :=
  List.insertionSort completesBefore tasks

/-- The instant the SSE stream closes: the `for future in
asyncio.as_completed(tasks)` loop ends when the last future completes
(`0` when no tasks were launched). -/
def streamCloseTime (tasks : List TaskRun) : Nat :=
  ((as_completed tasks).map TaskRun.finish).getLastD 0

/-- `true` for a completed task that the generator skips: the task
yielded `None`, or a `SourceResult` whose `"result"` list is empty. -/
def skippedTask (r : Option SourceResult) : Bool :=
  match r with
  | none => true
  | some s => s.result.isEmpty

/-! ### Lemmas about the split embedding -/

/-- Python `split` never returns an empty list. -/
lemma splitChar_ne_nil (sep : Char) (s : PyStr) : splitChar sep s ≠ [] := by
  cases s with
  | nil => simp [splitChar]
  | cons c rest =>
    unfold splitChar
    split
    · simp
    · cases h : splitChar sep rest <;> simp [h]

/-- Splitting on a single character produces one more piece than the
number of occurrences of that character. -/
lemma length_splitChar (sep : Char) (s : PyStr) :
    (splitChar sep s).length = s.count sep + 1 := by
  induction s with
  | nil => simp [splitChar]
  | cons c rest ih =>
    unfold splitChar
    by_cases hc : c = sep
    · simp [hc, ih, List.count_cons]
    · cases h : splitChar sep rest with
      | nil => exact absurd h (splitChar_ne_nil sep rest)
      | cons x xs =>
        rw [h] at ih
        simp [hc, h, List.count_cons]
        simpa using ih

/-- The inner episode match of `parse_cms_data`, written as a test on
the part count: a token is kept iff it splits into exactly two parts. -/
lemma parseEpisode_eq (t : PyStr) :
    parseEpisode t =
      if (splitDollar t).length = 2 then
        some { name := (splitDollar t).headD [],
               video_url := (splitDollar t).getD 1 [] }
      else none := by
  unfold parseEpisode
  match h : splitDollar t with
  | [] => simp [h]
  | [a] => simp [h]
  | [a, b] => simp [h]
  | a :: b :: c :: r => simp [h]

/-- The inner loop of `parse_cms_data` keeps exactly the well-formed
tokens, in order, mapping each to its two parts. -/
lemma filterMap_parseEpisode_eq (l : List PyStr) :
    l.filterMap parseEpisode =
      (l.filter fun t => (splitDollar t).length == 2).map
        fun t => { name := (splitDollar t).headD [],
                   video_url := (splitDollar t).getD 1 [] } := by
  induction l with
  | nil => rfl
  | cons t l ih =>
    rw [List.filterMap_cons, List.filter_cons]
    by_cases h : (splitDollar t).length = 2
    · rw [parseEpisode_eq, if_pos h]
      simp [h, ih]
    · rw [parseEpisode_eq, if_neg h]
      simp [h, ih]

/-- C3: the Normalizer splits the selected play-source segment by `'#'`
into episode tokens and each token by `'$'`; a token that does not split
into exactly two parts is discarded while every sibling token that does
split into exactly two parts is still emitted as an episode
`{name, video_url}`, in the order the tokens appear.  The right-hand
side keeps precisely the well-formed tokens of the `'#'`-split, in
order, independently of how many siblings are malformed; totality of
`parsedVideos` is the model of "no exception escapes". -/
theorem C3_episode_token_filter (play_urls_str : PyStr) :
    parsedVideos play_urls_str =
      ((splitHash play_urls_str).filter fun t => (splitDollar t).length == 2).map
        fun t => { name := (splitDollar t).headD [],
                   video_url := (splitDollar t).getD 1 [] } :=
  filterMap_parseEpisode_eq (splitHash play_urls_str)

/-- C3 witness: on `"EpA$u1#Bad#EpB$u2"` the malformed middle token is
dropped and both well-formed siblings survive, in order. -/
theorem C3_episode_token_filter_witness :
    parsedVideos (pstr "EpA$u1#Bad#EpB$u2") =
      (((splitHash (pstr "EpA$u1#Bad#EpB$u2")).filter
          fun t => (splitDollar t).length == 2).map
        fun t => { name := (splitDollar t).headD [],
                   video_url := (splitDollar t).getD 1 [] }) ∧
    parsedVideos (pstr "EpA$u1#Bad#EpB$u2") =
      [{ name := pstr "EpA", video_url := pstr "u1" },
       { name := pstr "EpB", video_url := pstr "u2" }] :=
  ⟨C3_episode_token_filter (pstr "EpA$u1#Bad#EpB$u2"), by decide⟩

/-- C10: an episode token containing exactly one `'$'` is accepted even
when the name part or the URL part (or both) is empty — only the part
count is checked, never non-emptiness — whereas a token whose `'$'`
count differs from one (zero, or two and more) is discarded. -/
theorem C10_single_dollar_token (tok : PyStr) :
    (tok.count '$' = 1 →
      parseEpisode tok =
        some { name := (splitDollar tok).headD [],
               video_url := (splitDollar tok).getD 1 [] }) ∧
    (tok.count '$' ≠ 1 → parseEpisode tok = none) := by
  have hlen : (splitDollar tok).length = tok.count '$' + 1 :=
    length_splitChar '$' tok
  rw [parseEpisode_eq]
  constructor
  · intro h
    rw [if_pos (by omega)]
  · intro h
    rw [if_neg (by omega)]

/-- C10 witness: the token `"$"` has exactly one `'$'` and yields the
episode with empty name and empty URL; `"a$b$c"` has two and is
dropped. -/
theorem C10_single_dollar_token_witness :
    ((pstr "$").count '$' = 1 ∧
      parseEpisode (pstr "$") =
        some { name := (splitDollar (pstr "$")).headD [],
               video_url := (splitDollar (pstr "$")).getD 1 [] } ∧
      parseEpisode (pstr "$") = some { name := [], video_url := [] }) ∧
    ((pstr "a$b$c").count '$' ≠ 1 ∧ parseEpisode (pstr "a$b$c") = none) :=
  ⟨⟨by decide, (C10_single_dollar_token (pstr "$")).1 (by decide), by decide⟩,
   by decide, (C10_single_dollar_token (pstr "a$b$c")).2 (by decide)⟩

/-- C4: a raw item whose parsed episode count is zero contributes no
media entry (the output has exactly one entry per item with a non-empty
parse), and every entry present in the returned result list has a
non-empty `videos` sequence. -/
theorem C4_entries_nonempty (source_name : PyStr) (cms_list : List RawItem) :
    (∀ e ∈ (parse_cms_data source_name cms_list).result, e.videos ≠ []) ∧
    (parse_cms_data source_name cms_list).result.length =
      (cms_list.filter fun item =>
        !(parsedVideos (firstPlaySegment item)).isEmpty).length := by
  constructor
  · intro e he
    simp only [parse_cms_data, List.mem_filterMap] at he
    obtain ⟨item, _, hf⟩ := he
    by_cases h : (parsedVideos (firstPlaySegment item)).isEmpty
    · simp [h] at hf
    · simp [h] at hf
      rw [← hf]
      simpa [List.isEmpty_iff] using h
  · show (cms_list.filterMap _).length = _
    induction cms_list with
    | nil => rfl
    | cons item l ih =>
      rw [List.filterMap_cons, List.filter_cons]
      by_cases h : (parsedVideos (firstPlaySegment item)).isEmpty
      · simpa [h] using ih
      · simpa [h] using ih

/-- C4 witness: an item parsing to zero episodes contributes nothing,
an item parsing to one episode contributes one entry with non-empty
videos. -/
theorem C4_entries_nonempty_witness :
    (∀ e ∈ (parse_cms_data (pstr "s")
        [{ vod_name := some (pstr "Bad"), vod_pic := none,
           vod_play_url := some (pstr "BadToken"),
           vod_id := none, vod_douban_id := none },
         { vod_name := some (pstr "Good"), vod_pic := none,
           vod_play_url := some (pstr "Ep$u"),
           vod_id := none, vod_douban_id := none }]).result, e.videos ≠ []) ∧
    (parse_cms_data (pstr "s")
        [{ vod_name := some (pstr "Bad"), vod_pic := none,
           vod_play_url := some (pstr "BadToken"),
           vod_id := none, vod_douban_id := none },
         { vod_name := some (pstr "Good"), vod_pic := none,
           vod_play_url := some (pstr "Ep$u"),
           vod_id := none, vod_douban_id := none }]).result.length = 1 :=
  ⟨(C4_entries_nonempty (pstr "s") _).1, by decide⟩

/-- C8: every entry the Normalizer produces comes from some raw item,
its episodes are parsed only from the first segment of the compound
play-source string delimited by the 3-character separator `"$$$"`
(`firstPlaySegment`), and a missing title, poster, or id field defaults
to a placeholder or empty value rather than failing. -/
theorem C8_first_segment_and_defaults (source_name : PyStr)
    (cms_list : List RawItem) :
    ∀ e ∈ (parse_cms_data source_name cms_list).result,
      ∃ item ∈ cms_list,
        e.videos = parsedVideos (firstPlaySegment item) ∧
        e.name = item.vod_name.getD (pstr "未知名称") ∧
        e.vod_pic = item.vod_pic.getD [] ∧
        e.vod_id = item.vod_id.getD [] ∧
        e.vod_douban_id = item.vod_douban_id.getD [] ∧
        (item.vod_name = none → e.name = pstr "未知名称") ∧
        (item.vod_pic = none → e.vod_pic = []) ∧
        (item.vod_id = none → e.vod_id = []) := by
  intro e he
  simp only [parse_cms_data, List.mem_filterMap] at he
  obtain ⟨item, hmem, hf⟩ := he
  refine ⟨item, hmem, ?_⟩
  by_cases h : (parsedVideos (firstPlaySegment item)).isEmpty
  · simp [h] at hf
  · simp [h] at hf
    rw [← hf]
    refine ⟨rfl, rfl, rfl, rfl, rfl, ?_, ?_, ?_⟩ <;> intro hn <;> rw [hn] <;> rfl

/-- C8 witness: an item with a two-segment play-source string and no
name/poster/id fields yields an entry parsed from the first segment
only, with the placeholder name and empty poster and ids. -/
theorem C8_first_segment_and_defaults_witness :
    ∃ item ∈ [({ vod_name := none, vod_pic := none,
                 vod_play_url := some (pstr "Ep$u$$$Other$v"),
                 vod_id := none, vod_douban_id := none } : RawItem)],
      ({ name := pstr "未知名称", vod_pic := [],
         videos := [{ name := pstr "Ep", video_url := pstr "u" }],
         vod_id := [], vod_douban_id := [] } : MediaEntry).videos =
          parsedVideos (firstPlaySegment item) ∧
      (pstr "未知名称") = item.vod_name.getD (pstr "未知名称") ∧
      ([] : PyStr) = item.vod_pic.getD [] ∧
      ([] : PyStr) = item.vod_id.getD [] ∧
      ([] : PyStr) = item.vod_douban_id.getD [] ∧
      (item.vod_name = none → (pstr "未知名称") = pstr "未知名称") ∧
      (item.vod_pic = none → ([] : PyStr) = []) ∧
      (item.vod_id = none → ([] : PyStr) = []) := by
  have h := C8_first_segment_and_defaults (pstr "s")
    [{ vod_name := none, vod_pic := none,
       vod_play_url := some (pstr "Ep$u$$$Other$v"),
       vod_id := none, vod_douban_id := none }]
    { name := pstr "未知名称", vod_pic := [],
      videos := [{ name := pstr "Ep", video_url := pstr "u" }],
      vod_id := [], vod_douban_id := [] }
    (by decide)
  simpa using h

/-- C1 counterexample: the claim says the keyword component of the
request URL is the URL-encoded form of the input keyword.  It is not:
`fetch_and_process` interpolates the keyword verbatim, so for the
keyword `"a&b"` the URL built by the code differs from the claimed
`{base_url}?ac=detail&wd={urlencoded keyword}` form (in which the `'&'`
would appear as `"%26"`). -/
theorem C1_keyword_not_urlencoded :
    build_url (pstr "http://e") (pstr "a&b") ≠
      pstr "http://e" ++ pstr "?ac=detail&wd=" ++ urlencode (pstr "a&b") := by
  decide

/-- C1 amended: the Fetcher builds the request URL as
`{base_url}?ac=detail&wd={keyword}` with the keyword inserted verbatim
(no URL-encoding); the URL coincides with the spec's urlencoded form
exactly for keywords that percent-encoding leaves unchanged. -/
theorem C1_url_raw_keyword (base_url keyword : PyStr) :
    build_url base_url keyword = base_url ++ pstr "?ac=detail&wd=" ++ keyword ∧
    (build_url base_url keyword =
        base_url ++ pstr "?ac=detail&wd=" ++ urlencode keyword ↔
      urlencode keyword = keyword) := by
  refine ⟨rfl, ?_⟩
  unfold build_url
  rw [List.append_assoc, List.append_assoc]
  constructor
  · intro h
    exact (List.append_cancel_left (List.append_cancel_left h)).symm
  · intro h
    rw [h]

/-- C1 amended, witness: for the plain keyword `"abc"` (unchanged by
percent-encoding) the built URL does match the spec's form. -/
theorem C1_url_raw_keyword_witness :
    build_url (pstr "http://e") (pstr "abc") =
      pstr "http://e" ++ pstr "?ac=detail&wd=" ++ pstr "abc" ∧
    build_url (pstr "http://e") (pstr "abc") =
      pstr "http://e" ++ pstr "?ac=detail&wd=" ++ urlencode (pstr "abc") :=
  ⟨(C1_url_raw_keyword (pstr "http://e") (pstr "abc")).1,
   (C1_url_raw_keyword (pstr "http://e") (pstr "abc")).2.mpr (by decide)⟩

/-- C2: `fetch_and_process` returns `None` — and, being total, never
raises to its caller — on every deviation from the success path
(timeout, transport fault, non-2xx status, non-JSON body, `code != 1`,
missing or empty `list`); it returns a result exactly when the response
is 2xx with a JSON body whose `code` is `1` and whose `list` is
non-empty, and that result is the normalized `parse_cms_data` output. -/
theorem C2_fetch_absent_on_failure (source : Source) (keyword : PyStr)
    (resp : FetchResponse) (r : SourceResult) :
    fetch_and_process source keyword resp = some r ↔
      ∃ status data,
        resp = FetchResponse.response status (some data) ∧
        is2xx status = true ∧ data.code = some 1 ∧ data.list.getD [] ≠ [] ∧
        r = parse_cms_data source.name (data.list.getD []) := by
  cases resp with
  | timeout => simp [fetch_and_process]
  | transportFault => simp [fetch_and_process]
  | response status body =>
    cases body with
    | none => simp [fetch_and_process]
    | some data =>
      simp only [fetch_and_process]
      split_ifs with h2 hc
      · constructor
        · intro h
          exact ⟨status, data, rfl, h2, hc.1, hc.2, (Option.some.inj h).symm⟩
        · rintro ⟨s', d', heq, -, -, -, hr⟩
          injection heq with h1 h2'
          subst h1
          injection h2' with h3
          subst h3
          rw [hr]
      · constructor
        · intro h
          exact h.elim
        · rintro ⟨s', d', heq, -, hcode, hlist, -⟩
          exfalso
          injection heq with h1 h2'
          subst h1
          injection h2' with h3
          subst h3
          exact hc ⟨hcode, hlist⟩
      · constructor
        · intro h
          exact h.elim
        · rintro ⟨s', d', heq, h2', -, -, -⟩
          exfalso
          injection heq with h1 h2''
          subst h1
          exact h2 h2'

/-- C2 witness: a 2xx response with `code = 1` and a one-item list
yields the normalized result; the same body with `code = 0` yields
`None`. -/
theorem C2_fetch_absent_on_failure_witness :
    fetch_and_process { name := pstr "A", base_url := pstr "http://a" }
        (pstr "kw")
        (FetchResponse.response 200 (some
          { code := some 1, msg := none,
            list := some [{ vod_name := some (pstr "Show"), vod_pic := none,
                            vod_play_url := some (pstr "Ep$u"),
                            vod_id := none, vod_douban_id := none }] })) =
      some (parse_cms_data (pstr "A")
        [{ vod_name := some (pstr "Show"), vod_pic := none,
           vod_play_url := some (pstr "Ep$u"),
           vod_id := none, vod_douban_id := none }]) ∧
    fetch_and_process { name := pstr "A", base_url := pstr "http://a" }
        (pstr "kw")
        (FetchResponse.response 200 (some
          { code := some 0, msg := some (pstr "no data"),
            list := some [{ vod_name := some (pstr "Show"), vod_pic := none,
                            vod_play_url := some (pstr "Ep$u"),
                            vod_id := none, vod_douban_id := none }] })) =
      none :=
  ⟨(C2_fetch_absent_on_failure _ _ _ _).mpr
    ⟨200, _, rfl, by decide, rfl, by decide, rfl⟩,
   by decide⟩

/-- C5: the coordinator loop surfaces a completed task exactly when its
result is not `None` and its entry list is non-empty: the yielded
sequence is precisely the non-`None`, non-empty results, in completion
order; the sequence is a total function of the finitely many
completions (it closes once all launched tasks completed), and when
every task is skipped it is empty rather than an error. -/
theorem C5_skip_absent_and_empty (completed : List (Option SourceResult)) :
    search_event_generator completed =
      (completed.filterMap id).filter (fun r => !r.result.isEmpty) ∧
    ((∀ r ∈ completed, skippedTask r = true) →
      search_event_generator completed = []) := by
  have hmain : search_event_generator completed =
      (completed.filterMap id).filter (fun r => !r.result.isEmpty) := by
    induction completed with
    | nil => rfl
    | cons r rest ih =>
      cases r with
      | none => simpa [search_event_generator] using ih
      | some s =>
        by_cases h : s.result.isEmpty <;>
          simp [search_event_generator, h, ih]
  refine ⟨hmain, ?_⟩
  intro hall
  rw [hmain, List.filter_eq_nil_iff]
  intro a ha
  simp only [List.mem_filterMap, id] at ha
  obtain ⟨r, hr, hid⟩ := ha
  match r, hid with
  | none, hid => exact Option.noConfusion hid
  | some s, hid =>
    have hs : s = a := by simpa using hid
    subst hs
    have hsk := hall (some s) hr
    simp [skippedTask] at hsk
    simp [hsk]

/-- C5 witness: with one `None` task and one empty-result task, every
completion is skipped and the stream is empty. -/
theorem C5_skip_absent_and_empty_witness :
    (∀ r ∈ [none, some ({ name := pstr "A", result := [] } : SourceResult)],
      skippedTask r = true) ∧
    search_event_generator
      [none, some ({ name := pstr "A", result := [] } : SourceResult)] = [] :=
  ⟨by decide,
   (C5_skip_absent_and_empty
     [none, some ({ name := pstr "A", result := [] } : SourceResult)]).2
     (by decide)⟩

/-- C6: a search request with an empty keyword returns the validation
error dictionary immediately — `if not keyword:` runs before the
streaming response (and hence the fetcher tasks) is even constructed —
and zero fetch tasks, i.e. zero network calls, are launched. -/
theorem C6_empty_keyword_rejected (keyword : PyStr) (site_config : SiteConfig)
    (h : keyword = []) :
    search keyword site_config =
      SearchResponse.validationError (pstr "keyword is required") ∧
    tasksLaunched (search keyword site_config) = 0 := by
  subst h
  exact ⟨rfl, rfl⟩

/-- C6 witness: the empty keyword against a config with two endpoints
yields the validation error and zero launched tasks. -/
theorem C6_empty_keyword_rejected_witness :
    (pstr "") = ([] : PyStr) ∧
    (search (pstr "")
        { timeout := 5,
          base_urls := [{ name := pstr "A", base_url := pstr "http://a" },
                        { name := pstr "B", base_url := pstr "http://b" }] } =
      SearchResponse.validationError (pstr "keyword is required") ∧
    tasksLaunched (search (pstr "")
        { timeout := 5,
          base_urls := [{ name := pstr "A", base_url := pstr "http://a" },
                        { name := pstr "B", base_url := pstr "http://b" }] }) = 0) :=
  ⟨rfl, C6_empty_keyword_rejected (pstr "") _ rfl⟩

/-- Interleaving invariant of `runSearchGo`: every fetch hits an
endpoint of the captured snapshot, and when no update is interleaved
every fetch reads the timeout the global held when the search started. -/
lemma runSearchGo_spec (snapshot : List Source) (events : List ConfigEvent) :
    ∀ g : SiteConfig,
      (∀ call ∈ runSearchGo snapshot g events, call.source ∈ snapshot) ∧
      (noConfigUpdate events = true →
        ∀ call ∈ runSearchGo snapshot g events, call.timeout = g.timeout) := by
  induction events with
  | nil =>
    intro g
    exact ⟨by simp [runSearchGo], fun _ => by simp [runSearchGo]⟩
  | cons e rest ih =>
    intro g
    cases e with
    | update c =>
      constructor
      · intro call hc
        exact (ih c).1 call hc
      · intro hno
        simp [noConfigUpdate] at hno
    | fetchGet i =>
      cases hs : snapshot[i]? with
      | none =>
        constructor
        · intro call hc
          simp only [runSearchGo, hs] at hc
          exact (ih g).1 call hc
        · intro hno call hc
          simp only [runSearchGo, hs] at hc
          have hr : noConfigUpdate rest = true := by
            simpa [noConfigUpdate] using hno
          exact (ih g).2 hr call hc
      | some s =>
        constructor
        · intro call hc
          simp only [runSearchGo, hs] at hc
          rcases List.mem_cons.mp hc with h | h
          · subst h
            exact List.getElem?_mem hs
          · exact (ih g).1 call h
        · intro hno call hc
          simp only [runSearchGo, hs] at hc
          have hr : noConfigUpdate rest = true := by
            simpa [noConfigUpdate] using hno
          rcases List.mem_cons.mp hc with h | h
          · subst h
            rfl
          · exact (ih g).2 hr call h

/-- C7 counterexample: the claim says both the endpoint list and the
timeout applied by every fetcher come from the snapshot active when the
search started.  The endpoint list does, but the timeout does not: the
search starts under a config with timeout `5`, a `/config` update
rebinds the global with timeout `99` before the fetcher reaches its
`client.get`, and that fetcher passes timeout `99`, not the snapshot's
`5`. -/
theorem C7_timeout_not_snapshotted :
    runSearchTrace
        { timeout := 5,
          base_urls := [{ name := pstr "A", base_url := pstr "http://a" }] }
        [ConfigEvent.update
          { timeout := 99,
            base_urls := [{ name := pstr "A", base_url := pstr "http://a" }] },
         ConfigEvent.fetchGet 0] =
      [{ source := { name := pstr "A", base_url := pstr "http://a" },
         timeout := 99 }] ∧
    ¬ (99 : Nat) = 5 := by
  constructor
  · rfl
  · decide

/-- C7 amended: the endpoint list a search fetches from is the one in
the snapshot captured when the search started, regardless of interleaved
updates; the timeout, however, is read from the live global config at
each fetcher's `client.get`, so it equals the snapshot's timeout only
when no config update is interleaved with the search. -/
theorem C7_endpoints_snapshotted_timeout_live (g₀ : SiteConfig)
    (events : List ConfigEvent) :
    (∀ call ∈ runSearchTrace g₀ events, call.source ∈ g₀.base_urls) ∧
    (noConfigUpdate events = true →
      ∀ call ∈ runSearchTrace g₀ events, call.timeout = g₀.timeout) :=
  runSearchGo_spec g₀.base_urls events g₀

/-- C7 amended, witness: with no interleaved update, the single fetch
hits the snapshot endpoint with the snapshot timeout. -/
theorem C7_endpoints_snapshotted_timeout_live_witness :
    (runSearchTrace
        { timeout := 5,
          base_urls := [{ name := pstr "A", base_url := pstr "http://a" }] }
        [ConfigEvent.fetchGet 0] =
      [{ source := { name := pstr "A", base_url := pstr "http://a" },
         timeout := 5 }]) ∧
    noConfigUpdate [ConfigEvent.fetchGet 0] = true ∧
    ∀ call ∈ runSearchTrace
        { timeout := 5,
          base_urls := [{ name := pstr "A", base_url := pstr "http://a" }] }
        [ConfigEvent.fetchGet 0],
      call.source ∈ [{ name := pstr "A", base_url := pstr "http://a" }] ∧
      call.timeout = 5 := by
  refine ⟨rfl, rfl, ?_⟩
  intro call hc
  have h := C7_endpoints_snapshotted_timeout_live
    { timeout := 5,
      base_urls := [{ name := pstr "A", base_url := pstr "http://a" }] }
    [ConfigEvent.fetchGet 0]
  exact ⟨h.1 call hc, h.2 rfl call hc⟩

/-- Every element of a list of naturals is bounded by the fold of
`Nat.max` over it. -/
lemma mem_le_foldr_max (l : List Nat) : ∀ x ∈ l, x ≤ l.foldr Nat.max 0 := by
  induction l with
  | nil => simp
  | cons a l ih =>
    intro x hx
    rcases List.mem_cons.mp hx with h | h
    · subst h
      exact Nat.le_max_left _ _
    · exact Nat.le_trans (ih x h) (Nat.le_max_right _ _)

/-- The fold of `Nat.max` over a list is at most its sum. -/
lemma foldr_max_le_sum (l : List Nat) : l.foldr Nat.max 0 ≤ l.sum := by
  induction l with
  | nil => simp
  | cons a l ih =>
    simp only [List.foldr_cons, List.sum_cons]
    exact Nat.max_le.mpr
      ⟨Nat.le_add_right _ _, Nat.le_trans ih (Nat.le_add_left _ _)⟩

/-- The fold of `Nat.max` is invariant under permutation. -/
lemma perm_foldr_max {l l' : List Nat} (h : l.Perm l') :
    l.foldr Nat.max 0 = l'.foldr Nat.max 0 := by
  induction h with
  | nil => rfl
  | cons x _ ih => simp [ih]
  | swap x y l => simp [Nat.max_left_comm]
  | trans _ _ ih1 ih2 => exact ih1.trans ih2

/-- In a `≤`-sorted list of naturals the last element is the maximum. -/
lemma sorted_getLastD_eq_foldr_max :
    ∀ l : List Nat, l.Sorted (· ≤ ·) → l.getLastD 0 = l.foldr Nat.max 0 := by
  intro l
  induction l with
  | nil => intro _; rfl
  | cons a l ih =>
    intro h
    cases l with
    | nil => simp
    | cons b t =>
      have hs : (b :: t).Sorted (· ≤ ·) := h.of_cons
      have hle : a ≤ b := (List.sorted_cons.mp h).1 b (List.mem_cons_self b t)
      have hb : b ≤ (b :: t).foldr Nat.max 0 :=
        mem_le_foldr_max _ b (List.mem_cons_self b t)
      calc (a :: b :: t).getLastD 0
          = (b :: t).getLastD 0 := by simp [List.getLastD_cons]
        _ = (b :: t).foldr Nat.max 0 := ih hs
        _ = Nat.max a ((b :: t).foldr Nat.max 0) :=
            (Nat.max_eq_right (Nat.le_trans hle hb)).symm
        _ = (a :: b :: t).foldr Nat.max 0 := rfl

/-- C9: the coordinator consumes the launched tasks in completion order
— `as_completed` is a permutation of the launched tasks (each consumed
exactly once) whose completion instants are nondecreasing, so the first
task to finish is handled first irrespective of the configured endpoint
order — and the stream closes at the instant the slowest task finishes:
`streamCloseTime` equals the maximum of the individual completion
instants, which is bounded by (never exceeds) their sum. -/
theorem C9_completion_order (tasks : List TaskRun) :
    (as_completed tasks).Perm tasks ∧
    List.Sorted (· ≤ ·) ((as_completed tasks).map TaskRun.finish) ∧
    streamCloseTime tasks = (tasks.map TaskRun.finish).foldr Nat.max 0 ∧
    (tasks.map TaskRun.finish).foldr Nat.max 0 ≤
      (tasks.map TaskRun.finish).sum := by
  have hperm : (as_completed tasks).Perm tasks :=
    List.perm_insertionSort completesBefore tasks
  have hsorted : List.Sorted completesBefore (as_completed tasks) :=
    List.sorted_insertionSort completesBefore tasks
  have hmap : List.Sorted (· ≤ ·) ((as_completed tasks).map TaskRun.finish) :=
    List.Pairwise.map TaskRun.finish (fun _ _ hab => hab) hsorted
  refine ⟨hperm, hmap, ?_, foldr_max_le_sum _⟩
  unfold streamCloseTime
  rw [sorted_getLastD_eq_foldr_max _ hmap]
  exact perm_foldr_max (hperm.map TaskRun.finish)
